import Mathlib

/-!
Verification development for the per-session module supervisor and message bus
implemented in `src/lib/module_manager.js` (the `module_manager` closure).

The JavaScript source is shallowly embedded: the mutable state captured by the
closure (`my.running_modules`, `my.shutdown_modules`, `my.core_module`) becomes
an explicit `MgrState` record that the embedded operations thread through;
JavaScript objects used as dictionaries become association lists; a message is
a record of optional fields (a `none` field models an absent or wrongly typed
property exactly as far as the source distinguishes them with `typeof` tests);
a JavaScript `throw` escaping a function is modelled by an explicit crash
outcome.  Compiled regular expressions are modelled as boolean predicates on
strings, and regular-expression compilation (the external JavaScript `RegExp`
constructor) is a parameter `RegexEngine` returning `none` when the
constructor would throw on a malformed pattern.
-/

namespace BreachCore

/-- JSON-serializable payload values carried inside message envelopes. -/
inductive Val where
  | vnull
  | vnum (n : Int)
  | vstr (s : String)
deriving DecidableEq, Repr

/-- A JavaScript `Error` as observed by the dispatcher (`err.message`,
`err.name`) when a core procedure handler fails. -/
structure JsError where
  message : String
  name : String
deriving DecidableEq, Repr

/-- The serialized error object attached to `rpc_reply` messages.  The source
writes the fields `msg`/`nme` (line 415) but the reply path reads
`msg.err.name` (line 461), so all three properties are modelled. -/
structure ErrObj where
  msg : Option String := none
  nme : Option String := none
  name : Option String := none
deriving DecidableEq, Repr

/-- Message header `{typ, mid, src}`.  A field is `none` when the property is
absent or fails the source's `typeof` test (string / number / string). -/
structure Header where
  typ : Option String := none
  mid : Option Nat := none
  src : Option String := none
deriving DecidableEq, Repr

/-- A message envelope: the union of all properties the dispatcher reads.
`args` is included because `core_call` (line 507) stores its payload under
that key, distinct from the `arg` key the rpc machinery reads. -/
structure Msg where
  hdr : Option Header := none
  src : Option String := none
  typ : Option String := none
  rid : Option Nat := none
  evt : Option Val := none
  dst : Option String := none
  prc : Option String := none
  arg : Option Val := none
  args : Option Val := none
  oid : Option Nat := none
  err : Option ErrObj := none
  res : Option Val := none
deriving DecidableEq, Repr

/-- A registration created by a `register` message: two compiled regular
expressions (modelled as boolean tests) and the originating message id. -/
structure Registration where
  source : String → Bool
  type : String → Bool
  registration_id : Nat

/-- A child process handle.  `killed` records that `process.kill()` was
invoked on it (the 5-second force-kill path). -/
structure Process where
  killed : Bool := false
deriving DecidableEq, Repr

/-- An entry of `my.running_modules` / `my.shutdown_modules`. -/
structure RunningModule where
  process : Option Process := none
  name : String
  path : String
  restart : Nat := 0
  registrations : List Registration := []

/-- A core procedure handler.  The JavaScript handler receives `msg.arg` and
calls its callback exactly once with `(err, res)`; that completed interaction
is modelled as a total function into `Except`. -/
abbrev Handler : Type := Option Val → Except JsError Val

/-- An opaque token identifying a stored rpc continuation (`cb_`). -/
abbrev Cont : Type := Nat

/-- The synthetic core participant `my.core_module` (lines 103-109). -/
structure CoreModule where
  path : String := "internal:breach/core"
  name : String := "core"
  procedures : List (String × Handler) := []
  message_id : Nat := 0
  rpc_calls : List (Nat × Cont) := []

/-- The mutable supervisor state captured by the `module_manager` closure. -/
structure MgrState where
  running_modules : List (String × RunningModule) := []
  shutdown_modules : List (String × RunningModule) := []
  core_module : CoreModule := {}

/-- Association-list lookup, modelling JavaScript property read `l[k]`
(`none` plays the role of `undefined`). -/
def lookupA {κ α : Type} [BEq κ] (l : List (κ × α)) (k : κ) : Option α :=
  (l.find? (fun p => p.1 == k)).map (fun p => p.2)

/-- Association-list store, modelling JavaScript property write `l[k] = v`. -/
def insertA {κ α : Type} [BEq κ] (l : List (κ × α)) (k : κ) (v : α) : List (κ × α) :=
  if (l.find? (fun p => p.1 == k)).isSome
  then l.map (fun p => if p.1 == k then (k, v) else p)
  else l ++ [(k, v)]

/-- Association-list delete, modelling JavaScript `delete l[k]`. -/
def removeA {κ α : Type} [BEq κ] (l : List (κ × α)) (k : κ) : List (κ × α) :=
  l.filter (fun p => p.1 != k)

/-- The external JavaScript `RegExp` constructor: `none` models a thrown
`SyntaxError` on a malformed pattern, `some f` a compiled regex whose
`test` method is `f`. -/
def RegexEngine : Type := String → Option (String → Bool)

/-- Outcome of one `dispatch(msg)` invocation.  `ignored` is the validation
gate's log-and-drop (lines 304-313); `ok` carries the new state, the
`process.send` calls performed synchronously (in order) and the messages
scheduled for re-dispatch on a later tick via `process.nextTick`; `crash`
models a JavaScript exception escaping `dispatch` (state at throw time). -/
inductive DispatchResult where
  | ignored (st : MgrState)
  | ok (st : MgrState) (sends : List (String × Msg)) (deferred : List Msg)
  | crash (st : MgrState)

/-- The state carried by a dispatch outcome. -/
def DispatchResult.state : DispatchResult → MgrState
  | .ignored st => st
  | .ok st _ _ => st
  | .crash st => st

/-- Synchronous `process.send` deliveries of a dispatch outcome. -/
def DispatchResult.sends : DispatchResult → List (String × Msg)
  | .ok _ s _ => s
  | _ => []

/-- Messages scheduled for a later tick by a dispatch outcome. -/
def DispatchResult.deferred : DispatchResult → List Msg
  | .ok _ _ d => d
  | _ => []

/-- Whether the dispatch threw. -/
def DispatchResult.isCrash : DispatchResult → Bool
  | .crash _ => true
  | _ => false

/-- Whether the dispatch was dropped by the validation gate. -/
def DispatchResult.isIgnored : DispatchResult → Bool
  | .ignored _ => true
  | _ => false

/-- Number of matching registrations of module `name` for an event from
`src` with event type `mtyp`: the filter mirrors the source's condition
`r.source.test(msg.hdr.src) && r.type.test(msg.typ) && msg.hdr.src !== name`
(lines 377-379). -/
def matchCount (src mtyp name : String) (regs : List Registration) : Nat :=
  (regs.filter (fun r => r.source src && r.type mtyp && src != name)).length

/-- The `process.send` calls performed by the event branch's nested loop
(lines 374-384): one delivery per matching registration, grouped per running
module in iteration order. -/
def event_sends (running : List (String × RunningModule)) (src mtyp : String)
    (msg : Msg) : List (String × Msg) :=
  running.flatMap (fun p =>
    List.replicate (matchCount src mtyp p.1 p.2.registrations) (p.1, msg))

/-- The number of deliveries addressed to `name` in a batch of sends. -/
def countSends (sends : List (String × Msg)) (name : String) : Nat :=
  (sends.filter (fun q => q.1 == name)).length

/-- Embedding of `dispatch` (lines 303-471).  Control flow follows the
source: validation gate, then a `switch` on `hdr.typ`. -/
def dispatch (eng : RegexEngine) (st : MgrState) (msg : Msg) : DispatchResult :=
  match msg.hdr with
  | none => .ignored st
  | some hdr =>
    match hdr.typ, hdr.mid, hdr.src with
    | some typ, some mid, some src =>
      if (lookupA st.running_modules src).isNone && src != st.core_module.name then
        .ignored st
      else if typ == "register" then
        match msg.src, msg.typ with
        | some ps, some pt =>
          match lookupA st.running_modules src with
          | none => .crash st
          | some rm =>
            match eng ps, eng pt with
            | some fs, some ft =>
              let rm' := { rm with registrations :=
                rm.registrations ++ [⟨fs, ft, mid⟩] }
              .ok { st with running_modules := insertA st.running_modules src rm' } [] []
            | _, _ => .crash st
        | _, _ => .ok st [] []
      else if typ == "unregister" then
        match msg.rid with
        | some rid =>
          match lookupA st.running_modules src with
          | none => .crash st
          | some rm =>
            let rm' := { rm with registrations :=
              rm.registrations.filter (fun r => r.registration_id != rid) }
            .ok { st with running_modules := insertA st.running_modules src rm' } [] []
        | none => .ok st [] []
      else if typ == "event" then
        let mtyp := msg.typ.getD "undefined"
        if st.running_modules.any
            (fun p => matchCount src mtyp p.1 p.2.registrations > 0 && p.2.process.isNone)
        then .crash st
        else .ok st (event_sends st.running_modules src mtyp msg) []
      else if typ == "rpc_call" then
        let dstS := msg.dst.getD "undefined"
        if (lookupA st.running_modules dstS).isSome &&
           ((lookupA st.running_modules src).isSome || src == st.core_module.name) then
          match lookupA st.running_modules dstS with
          | some dm =>
            match dm.process with
            | some _ => .ok st [(dstS, msg)] []
            | none => .crash st
          | none => .crash st
        else if dstS == st.core_module.name then
          let newMid := st.core_module.message_id + 1
          let base := { msg with
            oid := some mid,
            hdr := some ⟨some "rpc_reply", some newMid, some st.core_module.name⟩,
            dst := some src }
          let st' := { st with core_module :=
            { st.core_module with message_id := newMid } }
          match lookupA st.core_module.procedures (msg.prc.getD "undefined") with
          | some h =>
            match h msg.arg with
            | .ok v => .ok st' [] [{ base with res := some v }]
            | .error e =>
              .ok st' [] [{ base with err := some ⟨some e.message, some e.name, none⟩ }]
          | none =>
            let pnf : ErrObj :=
              ⟨some ("Procedure not found: `" ++ msg.prc.getD "undefined" ++ "`"),
               some "procedure_not_found", none⟩
            .ok st' [] [{ base with err := some pnf }]
        else .ok st [] []
      else if typ == "rpc_reply" then
        let dstS := msg.dst.getD "undefined"
        match lookupA st.running_modules dstS with
        | some dm =>
          if dm.process.isSome then .ok st [(dstS, msg)] []
          else if dstS == st.core_module.name then
            match msg.oid.bind (fun o => lookupA st.core_module.rpc_calls o) with
            | some _ => .crash st
            | none => .ok st [] []
          else .ok st [] []
        | none =>
          if dstS == st.core_module.name then
            match msg.oid.bind (fun o => lookupA st.core_module.rpc_calls o) with
            | some _ => .crash st
            | none => .ok st [] []
          else .ok st [] []
      else .ok st [] []
    | _, _, _ => .ignored st

/-- Embedding of `core_expose` (lines 484-486): install a handler in the core
procedure table, replacing any prior handler of the same name. -/
def core_expose (st : MgrState) (proc : String) (fn : Handler) : MgrState :=
  { st with core_module :=
    { st.core_module with procedures := insertA st.core_module.procedures proc fn } }

/-- Result of one `core_call` invocation: the synthesized envelope, the
outcome of the synchronous `dispatch`, and the state after the trailing
`my.core_module.rpc_calls[my.core_module.message_id] = cb_` assignment
(`none` when the dispatch threw, skipping the assignment). -/
structure CoreCallResult where
  msg : Msg
  dres : DispatchResult
  after : Option MgrState

/-- Embedding of `core_call` (lines 497-510).  Note the source stores the
payload under the key `args` (line 507) and records the continuation only
after `dispatch` returns, under the then-current `message_id`. -/
def core_call (eng : RegexEngine) (st : MgrState) (name proc : String)
    (payload : Val) (cb : Cont) : CoreCallResult :=
  let mid := st.core_module.message_id + 1
  let st1 := { st with core_module := { st.core_module with message_id := mid } }
  let m : Msg := { hdr := some ⟨some "rpc_call", some mid, some st.core_module.name⟩,
                   dst := some name, prc := some proc, args := some payload }
  match dispatch eng st1 m with
  | .crash s => ⟨m, .crash s, none⟩
  | .ignored s =>
    ⟨m, .ignored s, some { s with core_module := { s.core_module with
      rpc_calls := insertA s.core_module.rpc_calls s.core_module.message_id cb } }⟩
  | .ok s sd df =>
    ⟨m, .ok s sd df, some { s with core_module := { s.core_module with
      rpc_calls := insertA s.core_module.rpc_calls s.core_module.message_id cb } }⟩

/-- A parsed module identifier, the result of `expand_path` (lines 156-185). -/
inductive ExPath where
  | github (owner nm : String) (tag : Option String)
  | localp (p : String)
deriving DecidableEq, Repr

/-- The `type` property of a parsed identifier. -/
def ExPath.typeStr : ExPath → String
  | .github _ _ _ => "github"
  | .localp _ => "local"

/-- The `owner` property (`undefined`, i.e. `none`, on local identifiers). -/
def ExPath.ownerO : ExPath → Option String
  | .github o _ _ => some o
  | .localp _ => none

/-- The `name` property (`undefined` on local identifiers). -/
def ExPath.nameO : ExPath → Option String
  | .github _ n _ => some n
  | .localp _ => none

/-- Character class `[a-zA-Z0-9\-_\.]` of the identifier grammar. -/
def allowedChar (c : Char) : Bool :=
  c.isAlpha || c.isDigit || c == '-' || c == '_' || c == '.'

/-- Structural prefix test on character lists (the `^literal` part of the
source's anchored regexes). -/
def isPrefixChars : List Char → List Char → Bool
  | [], _ => true
  | _ :: _, [] => false
  | p :: ps, c :: cs => p == c && isPrefixChars ps cs

/-- String prefix test built on `isPrefixChars`. -/
def strStartsWith (s pre : String) : Bool :=
  isPrefixChars pre.toList s.toList

/-- Structural split of a character list at a separator character. -/
def splitOnChar (sep : Char) : List Char → List (List Char)
  | [] => [[]]
  | c :: rest =>
    if c == sep then [] :: splitOnChar sep rest
    else
      match splitOnChar sep rest with
      | h :: t => (c :: h) :: t
      | [] => [[c]]

/-- Decimal parse of a nonempty all-digit character list. -/
def parseNatChars (cs : List Char) : Option Nat :=
  if cs.isEmpty then none
  else if cs.all (fun c => c.isDigit) then
    some (cs.foldl (fun acc c => acc * 10 + (c.toNat - 48)) 0)
  else none

/-- Whitespace for trimming. -/
def isWspace (c : Char) : Bool :=
  c == ' ' || c == '\t' || c == '\n' || c == '\r'

/-- Trim whitespace from both ends of a character list. -/
def trimChars (cs : List Char) : List Char :=
  ((cs.dropWhile isWspace).reverse.dropWhile isWspace).reverse

/-- Models `process.env.HOME` (external environment input; Unix only). -/
def HOME : String := "/home/user"

/-- Models the external `path.join(HOME, rest)` used for `~` expansion; the
identifiers exercised in this development contain no `..` segments, on which
join is plain concatenation with a separator. -/
def path_join (a b : String) : String := a ++ "/" ++ b

/-- Models the external `path.normalize`; identity on the already-normalized
paths (no `..` segments, no trailing separator) used in this development. -/
def path_normalize (p : String) : String := p

/-- Match of the github identifier regex after the `github:` prefix: greedy
runs of `allowedChar` for owner and name separated by `/`, then an optional
`#tag` group; the regex is unanchored at the end, so trailing garbage is
ignored and a `#` followed by no allowed character leaves the tag absent. -/
def parse_github_rest (cs : List Char) : Option ExPath :=
  let ow := cs.takeWhile allowedChar
  let r1 := cs.dropWhile allowedChar
  if ow.isEmpty then none else
  match r1 with
  | '/' :: r2 =>
    let nm := r2.takeWhile allowedChar
    let r3 := r2.dropWhile allowedChar
    if nm.isEmpty then none else
    let tag :=
      match r3 with
      | '#' :: r4 =>
        let tg := r4.takeWhile allowedChar
        if tg.isEmpty then none else some (String.mk tg)
      | _ => none
    some (.github (String.mk ow) (String.mk nm) tag)
  | _ => none

/-- Match of the local identifier regex `/^local:(.+)$/` with `~` expansion
(lines 168-183). -/
def parse_local (path : String) : Option ExPath :=
  if strStartsWith path "local:" then
    match path.toList.drop 6 with
    | [] => none
    | '~' :: r => some (.localp (path_join HOME (String.mk r)))
    | rest => some (.localp (path_normalize (String.mk rest)))
  else none

/-- Embedding of `expand_path` (lines 156-185): try the github regex, then
the local regex, else `null`. -/
def expand_path (path : String) : Option ExPath :=
  if strStartsWith path "github:" then
    match parse_github_rest (path.toList.drop 7) with
    | some p => some p
    | none => parse_local path
  else parse_local path

/-- A semantic version, the relevant content of a cleaned semver string. -/
structure SemVer where
  major : Nat
  minor : Nat
  patch : Nat
deriving DecidableEq, Repr

/-- Boolean rendering of `semver.gt a b` on parsed versions. -/
def SemVer.gtB (a b : SemVer) : Bool :=
  decide (b.major < a.major) ||
    (decide (a.major = b.major) &&
      (decide (b.minor < a.minor) ||
        (decide (a.minor = b.minor) && decide (b.patch < a.patch))))

/-- Render a version back to its cleaned string form. -/
def SemVer.toStr (v : SemVer) : String :=
  toString v.major ++ "." ++ toString v.minor ++ "." ++ toString v.patch

/-- Models the external `semver` library's `clean(s, loose)` on the plain
`major.minor.patch` inputs (optionally prefixed by `v` or `=`, optionally
surrounded by whitespace) exercised in this development; anything else is
not a cleanable version and yields `none`, as the library does. -/
def semver_clean (s : String) : Option SemVer :=
  let cs := trimChars s.toList
  let cs2 :=
    match cs with
    | 'v' :: r => r
    | '=' :: r => r
    | _ => cs
  match splitOnChar '.' cs2 with
  | [a, b, c] =>
    match parseNatChars a, parseNatChars b, parseNatChars c with
    | some x, some y, some z => some ⟨x, y, z⟩
    | _, _, _ => none
  | _ => none

/-- Errors surfaced by the module manager (`common.err` codes), with `ext`
covering propagated external (filesystem / network / store) errors. -/
inductive MErr where
  | invalid_path
  | invalid_version
  | invalid_name
  | module_conflict
  | module_unknown
  | ext (e : String)
deriving DecidableEq, Repr

/-- Outcome of `augment_path`. -/
inductive AugRes where
  | ok (path : String)
  | err (e : MErr)
deriving DecidableEq, Repr

/-- A listed tag paired with its cleaned version (`{version, tag}` entries of
the `vers` array, lines 212-217). -/
abbrev TagVer := SemVer × String

/-- The `vers` array: listed tags that normalize to a semver, in listing
order. -/
def semver_tags (data : List String) : List TagVer :=
  data.filterMap (fun t => (semver_clean t).map (fun v => (v, t)))

/-- The comparator order used by the source's `vers.sort` (descending by
semver): `a` may precede `b` exactly when `b` is not strictly greater. -/
def versLE (a b : TagVer) : Prop := SemVer.gtB b.1 a.1 = false

instance : DecidableRel versLE := fun a b =>
  inferInstanceAs (Decidable (SemVer.gtB b.1 a.1 = false))

/-- Embedding of `augment_path` (lines 197-258).  The remote tag listing and
the local `fs.stat` are suspension points on external collaborators and are
passed in as their results: `tags` is the `repo.tags` callback input and
`statRes` the `fs.stat` callback input.  `List.insertionSort versLE` models
the stable `Array.prototype.sort` with the source's semver comparator. -/
def augment_path (path : String) (tags : Except String (List String))
    (statRes : Except String Unit) : AugRes :=
  match expand_path path with
  | none => .err .invalid_path
  | some (.localp p) =>
    match statRes with
    | .error e => .err (.ext e)
    | .ok _ => .ok ("local:" ++ p)
  | some (.github owner nm tag) =>
    match tags with
    | .error e => .err (.ext e)
    | .ok data =>
      let vers := semver_tags data
      let matched := data.any (fun t => tag == some t)
      if matched then .ok path
      else if tag == some "master" then
        .ok ("github:" ++ owner ++ "/" ++ nm ++ "#master")
      else if tag.isSome then .err .invalid_path
      else
        match List.insertionSort versLE vers with
        | v0 :: _ => .ok ("github:" ++ owner ++ "/" ++ nm ++ "#" ++ v0.2)
        | [] => .ok ("github:" ++ owner ++ "/" ++ nm ++ "#master")

/-- A persisted module record as the source actually constructs it in `add`
(lines 624-638): only `active`, `path`, `version`, `name` are ever written;
`owner` and `tag` stay `none` (absent) even for remote identifiers. -/
structure Record where
  path : String
  name : String := ""
  version : String := ""
  active : Bool := true
  owner : Option String := none
  tag : Option String := none
deriving DecidableEq, Repr

/-- The module manifest (`package.json`) fields the source reads; a field is
`none` when absent. -/
structure Manifest where
  name : Option String := none
  version : Option String := none
deriving DecidableEq, Repr

/-- Outcome of the `add` pipeline after path augmentation.  The two
`crashRef` constructors model `ReferenceError`s thrown by the source:
`crashRefEpxand` for the misspelled `epxand_path(path).name` on the remote
manifest fetch (line 602), `crashRefM` for the out-of-scope `m.name` in the
name-conflict error message (line 646).  `crashNull` models reading `.type`
of the `null` returned by `expand_path` on a malformed stored path. -/
inductive AddResult where
  | err (e : MErr)
  | crashRefEpxand
  | crashRefM
  | crashNull
  | ok (rec : Record) (db : List Record)
deriving DecidableEq, Repr

/-- One iteration of the conflict guard loop (lines 561-575): does the
existing record path `mpath` conflict with the incoming `path`?  `none`
models the `TypeError` thrown when either path fails to parse. -/
def conflict_with (path mpath : String) : Option Bool :=
  match expand_path mpath, expand_path path with
  | some pm, some pp =>
    if pm.typeStr == pp.typeStr then
      some (mpath == path ||
        (pp.typeStr == "github" && pm.ownerO == pp.ownerO && pm.nameO == pp.nameO) ||
        (pp.typeStr == "local" && mpath == path))
    else some false
  | _, _ => none

/-- The conflict guard scan over all stored records, with the source's
first-conflict early exit. -/
def conflict_scan (db : List Record) (path : String) : Option AddResult :=
  db.foldl
    (fun acc m =>
      match acc with
      | some r => some r
      | none =>
        match conflict_with path m.path with
        | none => some AddResult.crashNull
        | some true => some (.err .module_conflict)
        | some false => none)
    none

/-- Upsert keyed by `path`, modelling `db.update({path}, module, {upsert})`
(lines 653-658). -/
def upsertByPath (db : List Record) (rec : Record) : List Record :=
  if db.any (fun r => r.path == rec.path)
  then db.map (fun r => if r.path == rec.path then rec else r)
  else db ++ [rec]

/-- Embedding of the body of `add` after `augment_path` has succeeded
(lines 550-663): conflict guard, manifest retrieval, version/name checks,
name-conflict lookup, upsert.  `readPkg` is the result of the local
`package.json` read (`fs.readFile` + `JSON.parse`), an external suspension
point.  For a remote path the manifest step throws `ReferenceError` at the
URL construction (`epxand_path`), so `readPkg` is never consulted there. -/
def add_core (db : List Record) (path : String)
    (readPkg : Except String Manifest) : AddResult :=
  match conflict_scan db path with
  | some r => r
  | none =>
    match expand_path path with
    | none => .crashNull
    | some (.github _ _ _) => .crashRefEpxand
    | some (.localp _) =>
      match readPkg with
      | .error e => .err (.ext e)
      | .ok pkg =>
        match pkg.version.bind semver_clean with
        | none => .err .invalid_version
        | some v =>
          match pkg.name with
          | none => .err .invalid_name
          | some nm =>
            if nm == "" then .err .invalid_name
            else if db.any (fun r => r.name == nm) then .crashRefM
            else
              let rec0 : Record := { path := path, name := nm, version := v.toStr }
              .ok rec0 (upsertByPath db rec0)

/-- Lookup of a record by path, modelling `my.db.find({ path: path })`
followed by the emptiness check shared by `install`/`remove`/`run_module`/
`kill_module`. -/
def db_find_path (db : List Record) (path : String) : Option Record :=
  db.find? (fun r => r.path == path)

/-- Embedding of the `exit` handler installed by `run_module`
(lines 875-891) acting on the module's running-set entry: listeners are
detached and the process handle cleared; if `restart < 3` the counter is
incremented and `run_module` re-spawns the process (best effort), otherwise
the entry is deleted (`none`). -/
def exit_handler (rm : RunningModule) : Option RunningModule :=
  if rm.restart < 3 then
    some { rm with restart := rm.restart + 1, process := some {} }
  else none

/-- Iterated unexpected exits of a module starting from entry `rm`. -/
def exits (rm : RunningModule) : Nat → Option RunningModule
  | 0 => some rm
  | n + 1 => (exits rm n).bind exit_handler

/-- Asynchronous stimuli that can reach a pending `kill_module` operation:
the child's `exit` event and the 5-second timeout firing. -/
inductive KEvent where
  | child_exit
  | timer
deriving DecidableEq, Repr

/-- How a `kill_module` invocation ended: callback with no error, callback
with an error, or a thrown exception. -/
inductive KOutcome where
  | ok
  | failed (e : MErr)
  | crashed
deriving DecidableEq, Repr

/-- The in-flight state of one `kill_module` invocation: supervisor state,
completion status (`none` while pending), and whether the 5-second timer
force-killed the child. -/
structure KillState where
  st : MgrState
  done : Option KOutcome
  forced : Bool

/-- The `rpc_call` envelope `kill_module` dispatches to the child's `kill`
procedure (lines 952-960). -/
def kill_rpc_msg (core : CoreModule) (name : String) : Msg :=
  { hdr := some ⟨some "rpc_call", some (core.message_id + 1), some core.name⟩,
    dst := some name, prc := some "kill" }

/-- The synchronous part of `kill_module` after the record was found
(lines 949-987): if the module is running, dispatch the `kill` rpc, move the
entry from `running_modules` to `shutdown_modules`, and stay pending;
otherwise complete immediately with no error. -/
def kill_module_start (eng : RegexEngine) (st : MgrState) (module : Record) :
    KillState :=
  match lookupA st.running_modules module.name with
  | some rm =>
    match dispatch eng { st with core_module := { st.core_module with message_id := st.core_module.message_id + 1 } } (kill_rpc_msg st.core_module module.name) with
    | .crash s => ⟨s, some .crashed, false⟩
    | .ignored s =>
      ⟨{ s with running_modules := removeA s.running_modules module.name, shutdown_modules := insertA s.shutdown_modules module.name rm }, none, false⟩
    | .ok s _ _ =>
      ⟨{ s with running_modules := removeA s.running_modules module.name, shutdown_modules := insertA s.shutdown_modules module.name rm }, none, false⟩
  | none => ⟨st, some .ok, false⟩

/-- The effect of `process.kill()` on an entry's child process. -/
def force_killed (rm : RunningModule) : RunningModule :=
  { rm with process := rm.process.map (fun p => { p with killed := true }) }

/-- One asynchronous stimulus delivered to a pending `kill_module`: the
replacement `exit` handler (lines 968-973) removes the entry from
`shutdown_modules` and completes; the 5-second timer (lines 977-982) calls
`process.kill()` if the entry is still in `shutdown_modules`. -/
def kill_module_step (name : String) (ks : KillState) (e : KEvent) : KillState :=
  if ks.done.isSome then ks else
  match e with
  | .child_exit =>
    if (lookupA ks.st.shutdown_modules name).isSome then
      ⟨{ ks.st with shutdown_modules := removeA ks.st.shutdown_modules name },
       some .ok, ks.forced⟩
    else ks
  | .timer =>
    match lookupA ks.st.shutdown_modules name with
    | some rm =>
      ⟨{ ks.st with shutdown_modules := insertA ks.st.shutdown_modules name (force_killed rm) },
       none, true⟩
    | none => ks

/-- A whole `kill_module(path)` run (lines 929-989): resolve the record by
path (`module_unknown` if absent), start the shutdown, then process the
asynchronous stimuli in order. -/
def kill_module_run (eng : RegexEngine) (db : List Record) (st : MgrState)
    (path : String) (events : List KEvent) : KillState :=
  match db_find_path db path with
  | none => ⟨st, some (.failed .module_unknown), false⟩
  | some module =>
    events.foldl (kill_module_step module.name) (kill_module_start eng st module)

/-- Embedding of `kill` (lines 1039-1055): `async.each` invokes
`kill_module(module.name, ...)` — passing the module NAME as the path
argument — for every running module in parallel; each invocation starts from
the same supervisor state. -/
def kill_run (eng : RegexEngine) (db : List Record) (st : MgrState)
    (events : List KEvent) : List KillState :=
  st.running_modules.map (fun p => kill_module_run eng db st p.2.name events)

/-! ### Concrete fixtures used by witnesses and counterexamples -/

/-- A concrete regex engine: `(` is the canonical malformed pattern (the
JavaScript `RegExp` constructor throws on it); every other pattern compiles
to a test that accepts everything. -/
def eng0 : RegexEngine := fun s => if s == "(" then none else some (fun _ => true)

/-- A live running module named `alpha` installed from `local:/tmp/mod`. -/
def rmAlpha : RunningModule := { process := some {}, name := "alpha", path := "local:/tmp/mod" }

/-- Supervisor state with the single running module `alpha`. -/
def stAlpha : MgrState := { running_modules := [("alpha", rmAlpha)] }

/-- The registry record produced by adding `local:/tmp/mod`. -/
def recAlpha : Record := { path := "local:/tmp/mod", name := "alpha", version := "1.2.3" }

/-- The `core_call` invocation of the C1 scenario. -/
def c1res : CoreCallResult := core_call eng0 stAlpha "alpha" "ping" (.vnum 41) 7

/-- The well-formed `rpc_reply` a module would send back for the C1 call. -/
def c1reply : Msg :=
  { hdr := some ⟨some "rpc_reply", some 5, some "alpha"⟩,
    dst := some "core", oid := some 1, res := some (.vnum 42) }

/-- State with a `ping` procedure exposed on the core, for the C2 witness. -/
def c2st : MgrState :=
  core_expose { running_modules := [("alpha", rmAlpha)] } "ping"
    (fun _ => Except.ok (Val.vnum 42))

/-- The `rpc_call` addressed to the core of the C2 witness. -/
def c2msg : Msg :=
  { hdr := some ⟨some "rpc_call", some 7, some "alpha"⟩,
    dst := some "core", prc := some "ping", arg := some (.vnum 41) }

/-- A registration matching any source and event types starting `state:`. -/
def regState : Registration :=
  ⟨fun _ => true, fun t => strStartsWith t "state:", 3⟩

/-- State for the C3 witness: `alpha` subscribed, `beta` the emitter. -/
def c3st : MgrState :=
  { running_modules :=
      [("alpha", { rmAlpha with registrations := [regState] }),
       ("beta", { process := some {}, name := "beta", path := "local:/tmp/beta" })] }

/-- The event `beta` emits in the C3 witness. -/
def c3msg : Msg :=
  { hdr := some ⟨some "event", some 11, some "beta"⟩,
    typ := some "state:change", evt := some (.vnum 1) }

/-- A `register` message whose source pattern `(` is not a well-formed
regular expression. -/
def c4msg : Msg :=
  { hdr := some ⟨some "register", some 3, some "alpha"⟩,
    src := some "(", typ := some ".*" }

/-- A message with no `mid`, for the C4 witness's validation-gate part. -/
def c4badMsg : Msg := { hdr := some ⟨some "event", none, some "alpha"⟩ }

/-- The pending kill operation created by a first `kill_module` on `alpha`:
the entry has moved to `shutdown_modules` and the callback has not fired. -/
def c6ks1 : KillState := kill_module_run eng0 [recAlpha] stAlpha "local:/tmp/mod" []

/-! ### Association-list helper lemmas -/

theorem lookupA_insertA_self {κ α : Type} [BEq κ] [LawfulBEq κ]
    (l : List (κ × α)) (k : κ) (v : α) :
    lookupA (insertA l k v) k = some v := by
  induction l with
  | nil => simp [insertA, lookupA]
  | cons p t ih =>
    by_cases hp : (p.1 == k) = true
    · have hfind : (List.find? (fun q => q.1 == k) (p :: t)).isSome = true := by
        rw [List.find?_cons]
        simp [hp]
      rw [insertA, if_pos hfind]
      simp [lookupA, List.find?_cons, hp]
    · have hp' : (p.1 == k) = false := by simpa using hp
      have hfind : List.find? (fun q => q.1 == k) (p :: t) =
          List.find? (fun q => q.1 == k) t := by
        rw [List.find?_cons]
        simp [hp']
      rw [insertA, hfind]
      by_cases ht : (List.find? (fun q => q.1 == k) t).isSome = true
      · rw [if_pos ht]
        rw [insertA, if_pos ht] at ih
        simpa [lookupA, List.find?_cons, hp'] using ih
      · rw [if_neg ht]
        rw [insertA, if_neg ht] at ih
        simpa [lookupA, List.find?_cons, hp'] using ih

theorem lookupA_removeA_self {κ α : Type} [BEq κ] (l : List (κ × α)) (k : κ) :
    lookupA (removeA l k) k = none := by
  induction l with
  | nil => rfl
  | cons p t ih =>
    by_cases hp : (p.1 == k) = true
    · rw [removeA, List.filter_cons, if_neg (by simp [bne, hp])]
      simpa [removeA] using ih
    · have hp' : (p.1 == k) = false := by simpa using hp
      rw [removeA, List.filter_cons, if_pos (by simp [bne, hp'])]
      rw [lookupA, List.find?_cons]
      simp only [hp']
      simpa [lookupA, removeA] using ih

theorem lookupA_removeA_isNone {κ α : Type} [BEq κ] (l : List (κ × α)) (k : κ) :
    (lookupA (removeA l k) k).isNone = true := by
  rw [lookupA_removeA_self]
  rfl

/-! ### Claim theorems -/

/-- C1.  Evaluating `core_call` on a running module `alpha` shows the claim
fails on the code exactly where spec §9 flags the source slips: the
synthesized envelope has no `arg` property — the payload travels under
`args` — and although the continuation is recorded under the fresh mid and
the envelope (with `src = "core"` and that mid) is dispatched to the module,
the matching `rpc_reply` crashes the dispatcher at the misspelled
`my.core_moodule.rpc_calls[msg.oid]`, so the continuation can never fire and
the `pending_rpcs` entry is never removed. -/
theorem core_call_args_key_and_reply_crash :
    c1res.msg.arg = none ∧
    c1res.msg.args = some (.vnum 41) ∧
    c1res.msg.hdr = some ⟨some "rpc_call", some 1, some "core"⟩ ∧
    c1res.dres.sends = [("alpha", c1res.msg)] ∧
    (c1res.after.map (fun s => s.core_module.rpc_calls)) = some [(1, 7)] ∧
    (dispatch eng0 (c1res.after.getD {}) c1reply).isCrash = true ∧
    ((dispatch eng0 (c1res.after.getD {}) c1reply).state.core_module.rpc_calls) = [(1, 7)] :=
  ⟨rfl, rfl, rfl, rfl, rfl, rfl, rfl⟩

/-- C5.  Evaluating `kill` on a supervisor with the running module `alpha`
(registry record keyed by the canonical path `local:/tmp/mod`): `kill`
passes `module.name` to `kill_module`, whose registry lookup by path finds
nothing, so the invocation fails with `module_unknown` instead of performing
the graceful shutdown — while the same lookup by the record's actual path
succeeds. -/
theorem kill_passes_name_not_path :
    (kill_run eng0 [recAlpha] stAlpha []).map (fun k => k.done) =
      [some (.failed .module_unknown)] ∧
    recAlpha.name = "alpha" ∧
    db_find_path [recAlpha] "alpha" = none ∧
    db_find_path [recAlpha] recAlpha.path = some recAlpha :=
  ⟨rfl, rfl, rfl, rfl⟩

/-- C8.  The three path-level conflicts (identical canonical path, same
remote owner+name with a different tag, identical local path) are rejected
with a clean `module_conflict` error, but the fourth case — another record
with the same manifest name — reaches the error construction that reads the
out-of-scope variable `m` (line 646) and throws a `ReferenceError` instead
of surfacing `module_conflict` through the continuation. -/
theorem add_conflict_name_case_crashes :
    add_core [recAlpha] "local:/tmp/mod" (.ok ⟨some "alpha", some "1.2.3"⟩) =
      .err .module_conflict ∧
    add_core [{ path := "github:breach/mod#v1.0.0", name := "beta", version := "1.0.0" }]
        "github:breach/mod#v2.0.0" (.ok ⟨some "x", some "1.0.0"⟩) =
      .err .module_conflict ∧
    add_core [recAlpha] "local:/tmp/other" (.ok ⟨some "alpha", some "1.0.0"⟩) =
      .crashRefM :=
  ⟨rfl, rfl, rfl⟩

/-- C9.  For a local identifier `add` does read the manifest and upsert a
record keyed by the canonical path with the manifest name and cleaned
version; but for every remote identifier the manifest-fetch step throws a
`ReferenceError` at the misspelled `epxand_path(path).name` (line 602)
before any fetch, and the record layout never carries the denormalized
`owner`/`tag` fields the claim requires. -/
theorem add_remote_manifest_fetch_crashes :
    add_core [] "local:/tmp/mod" (.ok ⟨some "alpha", some "1.2.3"⟩) =
      .ok ⟨"local:/tmp/mod", "alpha", "1.2.3", true, none, none⟩
        [⟨"local:/tmp/mod", "alpha", "1.2.3", true, none, none⟩] ∧
    add_core [] "github:breach/mod_test#v1.0.0" (.ok ⟨some "x", some "1.0.0"⟩) =
      .crashRefEpxand :=
  ⟨rfl, rfl⟩

/-- C4 counterexample.  A `register` message from the running module `alpha`
whose source pattern `(` is not a well-formed regular expression is not
dropped silently: `new RegExp(msg.src)` throws a `SyntaxError` out of
`dispatch` (no registration is added — the state at the throw is unchanged). -/
theorem dispatch_malformed_register_throws :
    dispatch eng0 stAlpha c4msg = .crash stAlpha ∧
    (dispatch eng0 stAlpha c4msg).isIgnored = false :=
  ⟨rfl, rfl⟩

/-- Any module entry surviving an unexpected exit has a restart counter that
was below 3 before the exit and is incremented by it, so it stays at most 3. -/
theorem exits_restart_le (rm : RunningModule) (h : rm.restart ≤ 3) :
    ∀ k rm', exits rm k = some rm' → rm'.restart ≤ 3 := by
  intro k
  induction k with
  | zero =>
    intro rm' h'
    rw [exits] at h'
    injection h' with h''
    rw [← h'']
    exact h
  | succ n ih =>
    intro rm' h'
    rw [exits] at h'
    cases he : exits rm n with
    | none => rw [he] at h'; simp at h'
    | some r1 =>
      rw [he] at h'
      rw [Option.some_bind] at h'
      unfold exit_handler at h'
      by_cases hr : r1.restart < 3
      · rw [if_pos hr] at h'
        injection h' with h''
        rw [← h'']
        show r1.restart + 1 ≤ 3
        omega
      · rw [if_neg hr] at h'
        simp at h'

/-- C7.  The restart policy of `run_module`'s exit handler (lines 875-891):
starting from a fresh entry (`restart = 0`), each of the first three
unexpected exits increments the counter and re-runs the module, the counter
never exceeds 3, and the fourth unexpected exit deletes the entry from the
running set (`none`) — the module is dead for the session. -/
theorem restart_budget (rm : RunningModule) (h0 : rm.restart = 0) :
    (∀ k, k ≤ 3 → ∃ rm', exits rm k = some rm' ∧ rm'.restart = k) ∧
    (∀ k rm', exits rm k = some rm' → rm'.restart ≤ 3) ∧
    exits rm 4 = none := by
  obtain ⟨pr, nm, pa, rs, rg⟩ := rm
  change rs = 0 at h0
  subst h0
  refine ⟨?_, exits_restart_le ⟨pr, nm, pa, 0, rg⟩ (Nat.zero_le 3), rfl⟩
  intro k hk
  interval_cases k
  · exact ⟨_, rfl, rfl⟩
  · exact ⟨_, rfl, rfl⟩
  · exact ⟨_, rfl, rfl⟩
  · exact ⟨_, rfl, rfl⟩

/-- C7 witness: the fresh module `alpha` survives exactly three unexpected
exits (counter 3) and disappears on the fourth. -/
theorem restart_budget_witness :
    rmAlpha.restart = 0 ∧
    (∃ rm', exits rmAlpha 3 = some rm' ∧ rm'.restart = 3) ∧
    exits rmAlpha 4 = none :=
  ⟨rfl, (restart_budget rmAlpha rfl).1 3 (by omega), (restart_budget rmAlpha rfl).2.2⟩

/-- C2.  Every `rpc_call` with a valid header dispatched to `"core"` (no
module literally named `core` running; a genuine call envelope carrying no
`err`/`res`) is transformed in place into an `rpc_reply`: `oid` becomes the
original `hdr.mid`, `hdr.mid` a freshly allocated core message id, `src` and
`dst` are swapped (`src := "core"`, `dst` := original sender), and the reply
is queued for a later scheduler tick (`deferred`) with no synchronous send;
`res` is attached on handler success, `err = {msg, nme}` on handler failure,
and a never-exposed procedure yields `err` named `procedure_not_found`
without anything being thrown. -/
theorem rpc_call_to_core_transform (eng : RegexEngine) (st : MgrState) (msg : Msg)
    (mid : Nat) (src prc : String)
    (hhdr : msg.hdr = some ⟨some "rpc_call", some mid, some src⟩)
    (hval : ((lookupA st.running_modules src).isSome ||
      (src == st.core_module.name)) = true)
    (hdst : msg.dst = some st.core_module.name)
    (hncore : lookupA st.running_modules st.core_module.name = none)
    (hprc : msg.prc = some prc)
    (herr : msg.err = none)
    (hres : msg.res = none) :
    ∃ reply : Msg,
      dispatch eng st msg = .ok { st with core_module := { st.core_module with message_id := st.core_module.message_id + 1 } } [] [reply] ∧
      reply.oid = some mid ∧
      reply.hdr = some ⟨some "rpc_reply", some (st.core_module.message_id + 1), some st.core_module.name⟩ ∧
      reply.dst = some src ∧
      (∀ h, lookupA st.core_module.procedures prc = some h →
        (∀ v, h msg.arg = .ok v → reply.res = some v ∧ reply.err = none) ∧
        (∀ e, h msg.arg = .error e →
          reply.err = some ⟨some e.message, some e.name, none⟩ ∧ reply.res = none)) ∧
      (lookupA st.core_module.procedures prc = none →
        reply.err = some ⟨some ("Procedure not found: `" ++ prc ++ "`"), some "procedure_not_found", none⟩ ∧
        reply.res = none) := by
  have hcond : ((lookupA st.running_modules src).isNone &&
      (src != st.core_module.name)) = false := by
    rw [Bool.or_eq_true] at hval
    rcases hval with h | h
    · obtain ⟨x, hx⟩ := Option.isSome_iff_exists.mp h
      rw [hx]
      rfl
    · rw [bne, h]
      exact Bool.and_false _
  simp only [dispatch, hhdr, hdst, hprc, hcond, Bool.false_eq_true, if_false,
    show (("rpc_call" : String) == "register") = false from rfl,
    show (("rpc_call" : String) == "unregister") = false from rfl,
    show (("rpc_call" : String) == "event") = false from rfl,
    show (("rpc_call" : String) == "rpc_call") = true from rfl,
    if_true, Option.getD_some, hncore, Option.isSome_none, Bool.false_and,
    beq_self_eq_true]
  cases hp : lookupA st.core_module.procedures prc with
  | none =>
    simp only [hp]
    refine ⟨_, rfl, rfl, rfl, rfl, ?_, ?_⟩
    · intro h hh
      exact Option.noConfusion hh
    · intro _
      exact ⟨rfl, hres⟩
  | some h =>
    cases hc : h msg.arg with
    | ok v =>
      simp only [hp, hc]
      refine ⟨_, rfl, rfl, rfl, rfl, ?_, ?_⟩
      · intro h' hh'
        injection hh' with he
        subst he
        constructor
        · intro v' hv'
          rw [hc] at hv'
          injection hv' with hv''
          subst hv''
          exact ⟨rfl, herr⟩
        · intro e he'
          rw [hc] at he'
          exact Except.noConfusion he'
      · intro hn
        exact Option.noConfusion hn
    | error e =>
      simp only [hp, hc]
      refine ⟨_, rfl, rfl, rfl, rfl, ?_, ?_⟩
      · intro h' hh'
        injection hh' with he
        subst he
        constructor
        · intro v hv
          rw [hc] at hv
          exact Except.noConfusion hv
        · intro e' he'
          rw [hc] at he'
          injection he' with he''
          subst he''
          exact ⟨rfl, hres⟩
      · intro hn
        exact Option.noConfusion hn

/-- C2 witness: with `ping` exposed on the core and `alpha` running, the
call `{dst:"core", prc:"ping", mid:7}` from `alpha` yields a deferred
`rpc_reply` with `oid = 7`, a fresh core mid, swapped endpoints and no
synchronous send. -/
theorem rpc_call_to_core_witness :
    c2msg.hdr = some ⟨some "rpc_call", some 7, some "alpha"⟩ ∧
    ∃ reply : Msg,
      dispatch eng0 c2st c2msg = .ok { c2st with core_module := { c2st.core_module with message_id := 1 } } [] [reply] ∧
      reply.oid = some 7 ∧
      reply.hdr = some ⟨some "rpc_reply", some 1, some "core"⟩ ∧
      reply.dst = some "alpha" := by
  refine ⟨rfl, ?_⟩
  obtain ⟨reply, h1, h2, h3, h4, _, _⟩ :=
    rpc_call_to_core_transform eng0 c2st c2msg 7 "alpha" "ping" rfl rfl rfl rfl rfl rfl rfl
  exact ⟨reply, h1, h2, h3, h4⟩

/-- A message whose source passes the validation gate does not trip it. -/
theorem validation_false (st : MgrState) (src : String)
    (hval : ((lookupA st.running_modules src).isSome ||
      (src == st.core_module.name)) = true) :
    ((lookupA st.running_modules src).isNone &&
      (src != st.core_module.name)) = false := by
  rw [Bool.or_eq_true] at hval
  rcases hval with h | h
  · obtain ⟨x, hx⟩ := Option.isSome_iff_exists.mp h
    rw [hx]
    rfl
  · rw [bne, h]
    exact Bool.and_false _

/-- A name not among the running-module keys receives no event deliveries. -/
theorem countSends_zero (src mtyp name : String) (msg : Msg)
    (l : List (String × RunningModule)) (h : name ∉ l.map Prod.fst) :
    countSends (event_sends l src mtyp msg) name = 0 := by
  induction l with
  | nil => rfl
  | cons p t ih =>
    simp only [List.map_cons, List.mem_cons, not_or] at h
    obtain ⟨h1, h2⟩ := h
    have hb : ((p.1 : String) == name) = false :=
      beq_eq_false_iff_ne.mpr (fun e => h1 e.symm)
    unfold countSends event_sends
    rw [List.flatMap_cons, List.filter_append, List.filter_replicate]
    simp only [hb, Bool.false_eq_true, if_false, List.nil_append]
    have h3 := ih h2
    unfold countSends event_sends at h3
    exact h3

/-- With distinct running-module keys, the deliveries to module `name` are
exactly its matching registrations. -/
theorem countSends_event_sends (src mtyp name : String) (msg : Msg)
    (rm : RunningModule) (l : List (String × RunningModule))
    (hnd : (l.map Prod.fst).Nodup) (hmem : (name, rm) ∈ l) :
    countSends (event_sends l src mtyp msg) name =
      matchCount src mtyp name rm.registrations := by
  induction l with
  | nil => cases hmem
  | cons p t ih =>
    rw [List.map_cons, List.nodup_cons] at hnd
    obtain ⟨hp, hnd'⟩ := hnd
    rcases List.mem_cons.mp hmem with he | hmem'
    · obtain ⟨p1, p2⟩ := p
      injection he with he1 he2
      subst he1
      subst he2
      simp only [] at hp
      unfold countSends event_sends
      rw [List.flatMap_cons, List.filter_append, List.length_append,
        List.filter_replicate]
      simp only [beq_self_eq_true, if_true, List.length_replicate]
      have hz := countSends_zero src mtyp name msg t hp
      unfold countSends event_sends at hz
      omega
    · have hne : p.1 ≠ name := by
        intro e
        apply hp
        rw [e]
        exact List.mem_map.mpr ⟨(name, rm), hmem', rfl⟩
      have hb : (p.1 == name) = false := beq_eq_false_iff_ne.mpr hne
      unfold countSends event_sends
      rw [List.flatMap_cons, List.filter_append, List.length_append,
        List.filter_replicate]
      simp only [hb, Bool.false_eq_true, if_false, List.length_nil]
      have h3 := ih hnd' hmem'
      unfold countSends event_sends at h3
      omega

/-- Every event delivery goes to a running module other than the sender that
holds a registration matching the event's source and type. -/
theorem event_sends_mem (src mtyp : String) (msg : Msg)
    (l : List (String × RunningModule)) (q : String × Msg)
    (h : q ∈ event_sends l src mtyp msg) :
    q.2 = msg ∧ q.1 ≠ src ∧
    ∃ rm, (q.1, rm) ∈ l ∧
      ∃ r ∈ rm.registrations, r.source src = true ∧ r.type mtyp = true := by
  unfold event_sends at h
  obtain ⟨p, hpl, hq⟩ := List.mem_flatMap.mp h
  obtain ⟨hk, he⟩ := List.mem_replicate.mp hq
  subst he
  have hpos : 0 < matchCount src mtyp p.1 p.2.registrations := Nat.pos_of_ne_zero hk
  unfold matchCount at hpos
  obtain ⟨r, hr⟩ := List.exists_mem_of_length_pos hpos
  obtain ⟨hrmem, hcond⟩ := List.mem_filter.mp hr
  rw [Bool.and_eq_true, Bool.and_eq_true] at hcond
  obtain ⟨⟨ha, hb⟩, hc⟩ := hcond
  refine ⟨rfl, ?_, p.2, ?_, r, hrmem, ha, hb⟩
  · intro e
    exact (bne_iff_ne.mp hc) e.symm
  · exact hpl

/-- C3.  A dispatched event with a valid header (all running modules live,
distinct module names) crashes nothing and produces exactly the deliveries
of the claim: module `name` receives the message once per registration whose
source pattern matches `hdr.src` and type pattern matches `msg.typ` — zero
times when `name = hdr.src` (`matchCount` excludes the sender) — every
delivery goes to a running module other than the sender holding a matching
registration, and the sender itself never receives its own event. -/
theorem event_routing (eng : RegexEngine) (st : MgrState) (msg : Msg)
    (mid : Nat) (src mtyp : String)
    (hhdr : msg.hdr = some ⟨some "event", some mid, some src⟩)
    (htyp : msg.typ = some mtyp)
    (hval : ((lookupA st.running_modules src).isSome ||
      (src == st.core_module.name)) = true)
    (hlive : st.running_modules.all (fun p => p.2.process.isSome) = true)
    (hnd : (st.running_modules.map Prod.fst).Nodup) :
    dispatch eng st msg = .ok st (event_sends st.running_modules src mtyp msg) [] ∧
    (∀ name rm, (name, rm) ∈ st.running_modules →
      countSends (event_sends st.running_modules src mtyp msg) name =
        matchCount src mtyp name rm.registrations) ∧
    (∀ q ∈ event_sends st.running_modules src mtyp msg, q.2 = msg ∧ q.1 ≠ src ∧
      ∃ rm, (q.1, rm) ∈ st.running_modules ∧
        ∃ r ∈ rm.registrations, r.source src = true ∧ r.type mtyp = true) ∧
    (∀ m : Msg, (src, m) ∉ event_sends st.running_modules src mtyp msg) := by
  have hcond := validation_false st src hval
  have hany : (st.running_modules.any
      (fun p => matchCount src mtyp p.1 p.2.registrations > 0 &&
        p.2.process.isNone)) = false := by
    rw [List.any_eq_false]
    intro p hp
    rw [List.all_eq_true] at hlive
    obtain ⟨x, hx⟩ := Option.isSome_iff_exists.mp (hlive p hp)
    rw [hx]
    simp
  refine ⟨?_, ?_, ?_, ?_⟩
  · simp only [dispatch, hhdr, htyp, hcond, Bool.false_eq_true, if_false,
      show (("event" : String) == "register") = false from rfl,
      show (("event" : String) == "unregister") = false from rfl,
      show (("event" : String) == "event") = true from rfl,
      if_true, Option.getD_some, hany]
  · intro name rm hmem
    exact countSends_event_sends src mtyp name msg rm st.running_modules hnd hmem
  · intro q hq
    exact event_sends_mem src mtyp msg st.running_modules q hq
  · intro m hm
    exact (event_sends_mem src mtyp msg st.running_modules (src, m) hm).2.1 rfl

/-- C3 witness: `beta` emits `state:change`; subscribed `alpha` receives it
exactly once and the sender `beta` receives nothing. -/
theorem event_routing_witness :
    c3st.running_modules.all (fun p => p.2.process.isSome) = true ∧
    dispatch eng0 c3st c3msg = .ok c3st (event_sends c3st.running_modules "beta" "state:change" c3msg) [] ∧
    countSends (event_sends c3st.running_modules "beta" "state:change" c3msg) "alpha" = 1 ∧
    (∀ m : Msg, ("beta", m) ∉ event_sends c3st.running_modules "beta" "state:change" c3msg) := by
  obtain ⟨hd, hcount, _, hself⟩ :=
    event_routing eng0 c3st c3msg 11 "beta" "state:change" rfl rfl rfl rfl (by decide)
  refine ⟨rfl, hd, ?_, hself⟩
  have h1 := hcount "alpha" { rmAlpha with registrations := [regState] } (by
    simp [c3st, List.mem_cons])
  rw [h1]
  rfl

/-- Arithmetic reading of the boolean semver comparison. -/
theorem gtB_eq_false (a b : SemVer) :
    (SemVer.gtB a b = false) ↔
      ¬(b.major < a.major ∨ (a.major = b.major ∧
        (b.minor < a.minor ∨ (a.minor = b.minor ∧ b.patch < a.patch)))) := by
  rw [← Bool.not_eq_true]
  unfold SemVer.gtB
  simp

/-- A version is never strictly greater than itself. -/
theorem gtB_self (v : SemVer) : SemVer.gtB v v = false := by
  rw [gtB_eq_false]
  omega

instance : IsTotal TagVer versLE :=
  ⟨fun a b => by
    unfold versLE
    rw [gtB_eq_false, gtB_eq_false]
    omega⟩

instance : IsTrans TagVer versLE :=
  ⟨fun a b c hab hbc => by
    unfold versLE at hab hbc ⊢
    rw [gtB_eq_false] at hab hbc ⊢
    omega⟩

/-- The head of the comparator-sorted `vers` array is a listed entry whose
version no other listed entry strictly exceeds. -/
theorem insertionSort_head_max (l : List TagVer) (v0 : TagVer) (rest : List TagVer)
    (h : List.insertionSort versLE l = v0 :: rest) :
    v0 ∈ l ∧ ∀ y ∈ l, SemVer.gtB y.1 v0.1 = false := by
  have hs := List.sorted_insertionSort versLE l
  rw [h] at hs
  have hperm := List.perm_insertionSort versLE l
  rw [h] at hperm
  constructor
  · exact hperm.mem_iff.mp (List.mem_cons_self _ _)
  · intro y hy
    have hy2 : y ∈ v0 :: rest := hperm.mem_iff.mpr hy
    rcases List.mem_cons.mp hy2 with he | hmem
    · rw [he]
      exact gtB_self _
    · exact List.rel_of_sorted_cons hs y hmem

/-- C10.  Tag resolution of `augment_path` for remote identifiers
(lines 203-248), rules in source order: (1) a supplied tag that exactly
matches a listed tag keeps the path as-is; (2) a supplied `master` (matching
no listed tag) is kept literally; (3) a supplied tag matching no listed tag
fails with `invalid_path`; (4) with no supplied tag, a tag whose cleaned
semver no listed tag exceeds is chosen; (5) with no supplied tag and no
semver-normalizable tags the result defaults to `master`; (6) a tag-listing
failure propagates the underlying network error. -/
theorem augment_tag_resolution (path owner nm : String) (tag : Option String)
    (data : List String) (statRes : Except String Unit) (e : String)
    (hexp : expand_path path = some (.github owner nm tag)) :
    (∀ t, tag = some t → t ∈ data →
      augment_path path (.ok data) statRes = .ok path) ∧
    (tag = some "master" → "master" ∉ data →
      augment_path path (.ok data) statRes = .ok ("github:" ++ owner ++ "/" ++ nm ++ "#master")) ∧
    (∀ t, tag = some t → t ∉ data → t ≠ "master" →
      augment_path path (.ok data) statRes = .err .invalid_path) ∧
    (tag = none → semver_tags data ≠ [] →
      ∃ v tg, augment_path path (.ok data) statRes = .ok ("github:" ++ owner ++ "/" ++ nm ++ "#" ++ tg) ∧
        (v, tg) ∈ semver_tags data ∧
        ∀ w ∈ semver_tags data, SemVer.gtB w.1 v = false) ∧
    (tag = none → semver_tags data = [] →
      augment_path path (.ok data) statRes = .ok ("github:" ++ owner ++ "/" ++ nm ++ "#master")) ∧
    (augment_path path (.error e) statRes = .err (.ext e)) := by
  refine ⟨?_, ?_, ?_, ?_, ?_, ?_⟩
  · intro t htag htmem
    have hm : (data.any (fun t' => tag == some t')) = true :=
      List.any_eq_true.mpr ⟨t, htmem, by rw [htag]; exact beq_self_eq_true _⟩
    simp only [augment_path, hexp, hm, if_true]
  · intro htag hnm
    have hm : (data.any (fun t' => tag == some t')) = false := by
      rw [List.any_eq_false]
      intro x hx hbe
      rw [htag, beq_iff_eq] at hbe
      injection hbe with hbe2
      exact hnm (hbe2 ▸ hx)
    rw [htag] at hm
    simp only [augment_path, hexp, htag, hm, Bool.false_eq_true, if_false,
      beq_self_eq_true, if_true]
  · intro t htag htmem hne
    have hm : (data.any (fun t' => tag == some t')) = false := by
      rw [List.any_eq_false]
      intro x hx hbe
      rw [htag, beq_iff_eq] at hbe
      injection hbe with hbe2
      exact htmem (hbe2 ▸ hx)
    have hmm : ((some t : Option String) == some "master") = false :=
      beq_eq_false_iff_ne.mpr (fun he => hne (by injection he))
    rw [htag] at hm
    simp only [augment_path, hexp, htag, hm, Bool.false_eq_true, if_false, hmm,
      Option.isSome_some, if_true]
  · intro htag hne
    have hm : (data.any (fun t' => tag == some t')) = false := by
      rw [List.any_eq_false]
      intro x hx hbe
      rw [htag] at hbe
      exact Bool.noConfusion hbe
    cases hsrt : List.insertionSort versLE (semver_tags data) with
    | nil =>
      exfalso
      have hperm := List.perm_insertionSort versLE (semver_tags data)
      rw [hsrt] at hperm
      exact hne hperm.symm.eq_nil
    | cons v0 rest =>
      obtain ⟨hmem, hmax⟩ := insertionSort_head_max _ v0 rest hsrt
      refine ⟨v0.1, v0.2, ?_, hmem, hmax⟩
      rw [htag] at hm
      simp only [augment_path, hexp, htag, hm, Bool.false_eq_true, if_false,
        show ((none : Option String) == some "master") = false from rfl,
        Option.isSome_none, hsrt]
  · intro htag hnil
    have hm : (data.any (fun t' => tag == some t')) = false := by
      rw [List.any_eq_false]
      intro x hx hbe
      rw [htag] at hbe
      exact Bool.noConfusion hbe
    have hsrt : List.insertionSort versLE (semver_tags data) = [] := by
      rw [hnil]
      rfl
    rw [htag] at hm
    simp only [augment_path, hexp, htag, hm, Bool.false_eq_true, if_false,
      show ((none : Option String) == some "master") = false from rfl,
      Option.isSome_none, hsrt]
  · simp only [augment_path, hexp]

/-- C10 witness: with listed tags `v1.0.0`, `v2.0.0`, a supplied matching
tag is kept as-is, and a tag-listing failure surfaces the network error. -/
theorem augment_tag_resolution_witness :
    expand_path "github:breach/mod#v1.0.0" = some (.github "breach" "mod" (some "v1.0.0")) ∧
    "v1.0.0" ∈ ["v1.0.0", "v2.0.0"] ∧
    augment_path "github:breach/mod#v1.0.0" (.ok ["v1.0.0", "v2.0.0"]) (.ok ()) = .ok "github:breach/mod#v1.0.0" ∧
    augment_path "github:breach/mod#v1.0.0" (.error "ECONNRESET") (.ok ()) = .err (.ext "ECONNRESET") := by
  have h := augment_tag_resolution "github:breach/mod#v1.0.0" "breach" "mod"
    (some "v1.0.0") ["v1.0.0", "v2.0.0"] (.ok ()) "ECONNRESET" rfl
  exact ⟨rfl, by simp, h.1 "v1.0.0" rfl (by simp), h.2.2.2.2.2⟩

/-- C4 (amended).  The validation gate of `dispatch` (lines 304-313) logs
and drops — with no state change and no exception — every message missing a
string `hdr.typ`, a numeric `hdr.mid`, or a string `hdr.src`, or whose
`hdr.src` is neither a running module name nor `"core"`.  However, a
`register` message whose `src` or `typ` pattern fails to compile is NOT
dropped silently: the `RegExp` constructor's error propagates out of
`dispatch` (still with no registration added — the state at the throw is the
entry state). -/
theorem dispatch_gate_drops_and_bad_pattern_throws
    (eng : RegexEngine) (st : MgrState) (msg : Msg) :
    ((msg.hdr = none ∨
      ∃ hdr, msg.hdr = some hdr ∧
        (hdr.typ = none ∨ hdr.mid = none ∨ hdr.src = none ∨
         ∃ s, hdr.src = some s ∧ lookupA st.running_modules s = none ∧
           s ≠ st.core_module.name)) →
      dispatch eng st msg = .ignored st) ∧
    (∀ mid src ps pt rm,
      msg.hdr = some ⟨some "register", some mid, some src⟩ →
      msg.src = some ps → msg.typ = some pt →
      lookupA st.running_modules src = some rm →
      (eng ps = none ∨ eng pt = none) →
      dispatch eng st msg = .crash st) := by
  constructor
  · intro h
    rcases h with h | ⟨⟨t, m, s⟩, hh, hcase⟩
    · unfold dispatch
      rw [h]
    · rcases hcase with ht | hm | hs | ⟨s', hs', hlook, hne⟩
      · change t = none at ht
        subst ht
        unfold dispatch
        rw [hh]
      · change m = none at hm
        subst hm
        unfold dispatch
        rw [hh]
        cases t <;> rfl
      · change s = none at hs
        subst hs
        unfold dispatch
        rw [hh]
        cases t <;> cases m <;> rfl
      · change s = some s' at hs'
        subst hs'
        have hb : (s' == st.core_module.name) = false := beq_eq_false_iff_ne.mpr hne
        cases t with
        | none =>
          unfold dispatch
          rw [hh]
        | some tv =>
          cases m with
          | none =>
            unfold dispatch
            rw [hh]
          | some mv =>
            simp [dispatch, hh, hlook, hb, bne]
  · intro mid src ps pt rm hh hsrc htyp hlook hbad
    have hB : ((lookupA st.running_modules src).isNone &&
        (src != st.core_module.name)) = false := by
      rw [hlook]
      rfl
    simp only [dispatch, hh, hsrc, htyp, hlook, hB, Bool.false_eq_true, if_false,
      beq_self_eq_true, if_true]
    rcases hbad with h | h
    · rw [h]
      cases eng pt <;> rfl
    · rw [h]
      cases eng ps <;> rfl

/-- C4 witness: a message with no `mid` is dropped with the state unchanged,
and the malformed-pattern register from `alpha` throws. -/
theorem dispatch_gate_witness :
    dispatch eng0 stAlpha c4badMsg = .ignored stAlpha ∧
    dispatch eng0 stAlpha c4msg = .crash stAlpha := by
  constructor
  · exact (dispatch_gate_drops_and_bad_pattern_throws eng0 stAlpha c4badMsg).1
      (Or.inr ⟨⟨some "event", none, some "alpha"⟩, rfl, Or.inr (Or.inl rfl)⟩)
  · exact (dispatch_gate_drops_and_bad_pattern_throws eng0 stAlpha c4msg).2
      3 "alpha" "(" ".*" rmAlpha rfl rfl rfl rfl (Or.inl rfl)

/-- A `kill_module` stimulus never touches the running set. -/
theorem kill_step_running (name : String) (ks : KillState) (e : KEvent) :
    (kill_module_step name ks e).st.running_modules = ks.st.running_modules := by
  unfold kill_module_step
  by_cases hd : ks.done.isSome = true
  · simp [hd]
  · simp only [hd, Bool.false_eq_true, if_false]
    cases e with
    | child_exit =>
      by_cases hs : (lookupA ks.st.shutdown_modules name).isSome = true
      · simp [hs]
      · simp [hs]
    | timer =>
      cases lookupA ks.st.shutdown_modules name with
      | none => rfl
      | some rm => rfl

/-- Stimuli preserve "whenever pending or successfully completed, the module
is absent from the running set". -/
theorem kill_step_invA (name : String) (ks : KillState) (e : KEvent)
    (h : (ks.done = none ∨ ks.done = some .ok) →
      lookupA ks.st.running_modules name = none) :
    ((kill_module_step name ks e).done = none ∨
      (kill_module_step name ks e).done = some .ok) →
      lookupA (kill_module_step name ks e).st.running_modules name = none := by
  intro h2
  rw [kill_step_running]
  by_cases hd : ks.done.isSome = true
  · apply h
    have he : kill_module_step name ks e = ks := by
      unfold kill_module_step
      simp [hd]
    rw [he] at h2
    exact h2
  · exact h (Or.inl (Option.not_isSome_iff_eq_none.mp (by simpa using hd)))

/-- Stimuli preserve the pending/completed shutdown-set invariant of a
`kill_module` started on a running module. -/
theorem kill_step_invB (name : String) (ks : KillState) (e : KEvent)
    (h1 : ks.done = none →
      (lookupA ks.st.shutdown_modules name).isSome = true ∧
      lookupA ks.st.running_modules name = none)
    (h2 : ks.done = some .ok →
      lookupA ks.st.shutdown_modules name = none ∧
      lookupA ks.st.running_modules name = none) :
    ((kill_module_step name ks e).done = none →
      (lookupA (kill_module_step name ks e).st.shutdown_modules name).isSome = true ∧
      lookupA (kill_module_step name ks e).st.running_modules name = none) ∧
    ((kill_module_step name ks e).done = some .ok →
      lookupA (kill_module_step name ks e).st.shutdown_modules name = none ∧
      lookupA (kill_module_step name ks e).st.running_modules name = none) := by
  by_cases hd : ks.done.isSome = true
  · have he : kill_module_step name ks e = ks := by
      unfold kill_module_step
      simp [hd]
    rw [he]
    exact ⟨h1, h2⟩
  · have hdn : ks.done = none := Option.not_isSome_iff_eq_none.mp (by simpa using hd)
    obtain ⟨hhas, hrun⟩ := h1 hdn
    cases e with
    | child_exit =>
      have he : kill_module_step name ks .child_exit =
          ⟨{ ks.st with shutdown_modules := removeA ks.st.shutdown_modules name },
            some .ok, ks.forced⟩ := by
        unfold kill_module_step
        simp [hd, hhas]
      rw [he]
      constructor
      · intro hcon
        exact absurd hcon (by simp)
      · intro _
        exact ⟨lookupA_removeA_self _ _, hrun⟩
    | timer =>
      obtain ⟨rm, hrm⟩ := Option.isSome_iff_exists.mp hhas
      have he : kill_module_step name ks .timer =
          ⟨{ ks.st with shutdown_modules := insertA ks.st.shutdown_modules name (force_killed rm) }, none, true⟩ := by
        unfold kill_module_step
        simp [hd, hrm]
      rw [he]
      constructor
      · intro _
        refine ⟨?_, hrun⟩
        rw [lookupA_insertA_self]
        rfl
      · intro hcon
        exact absurd hcon (by simp)

/-- Invariant A propagated through a whole stimulus sequence. -/
theorem kill_foldl_invA (name : String) (events : List KEvent) :
    ∀ ks : KillState,
      ((ks.done = none ∨ ks.done = some .ok) →
        lookupA ks.st.running_modules name = none) →
      ((events.foldl (kill_module_step name) ks).done = none ∨
        (events.foldl (kill_module_step name) ks).done = some .ok) →
        lookupA (events.foldl (kill_module_step name) ks).st.running_modules name = none := by
  induction events with
  | nil =>
    intro ks h
    exact h
  | cons e t ih =>
    intro ks h
    exact ih _ (kill_step_invA name ks e h)

/-- Invariant B propagated through a whole stimulus sequence. -/
theorem kill_foldl_invB (name : String) (events : List KEvent) :
    ∀ ks : KillState,
      (ks.done = none →
        (lookupA ks.st.shutdown_modules name).isSome = true ∧
        lookupA ks.st.running_modules name = none) →
      (ks.done = some .ok →
        lookupA ks.st.shutdown_modules name = none ∧
        lookupA ks.st.running_modules name = none) →
      ((events.foldl (kill_module_step name) ks).done = some .ok →
        lookupA (events.foldl (kill_module_step name) ks).st.shutdown_modules name = none ∧
        lookupA (events.foldl (kill_module_step name) ks).st.running_modules name = none) := by
  induction events with
  | nil =>
    intro ks _ h2
    exact h2
  | cons e t ih =>
    intro ks h1 h2
    obtain ⟨g1, g2⟩ := kill_step_invB name ks e h1 h2
    exact ih _ g1 g2

/-- The `kill` rpc `kill_module` dispatches is forwarded to the (running,
live) target module and leaves the state unchanged. -/
theorem dispatch_kill_rpc (eng : RegexEngine) (st1 : MgrState) (core : CoreModule)
    (name : String) (rm : RunningModule) (pr : Process)
    (hcn : core.name = st1.core_module.name)
    (hlook : lookupA st1.running_modules name = some rm)
    (hpr : rm.process = some pr) :
    dispatch eng st1 (kill_rpc_msg core name) =
      .ok st1 [(name, kill_rpc_msg core name)] [] := by
  have hbeq : (core.name == st1.core_module.name) = true := by
    rw [hcn]
    exact beq_self_eq_true _
  simp [dispatch, kill_rpc_msg, hbeq, hlook, hpr, bne]

/-- If the module is not running, `kill_module`'s kill phase completes
immediately with no error and no state change. -/
theorem kill_module_start_none (eng : RegexEngine) (st : MgrState) (module : Record)
    (hl : lookupA st.running_modules module.name = none) :
    kill_module_start eng st module = ⟨st, some .ok, false⟩ := by
  unfold kill_module_start
  rw [hl]

/-- If the module is running, `kill_module`'s kill phase either throws (the
dispatch of the `kill` rpc crashed) or pends with the entry moved from the
running set to the shutdown set. -/
theorem kill_module_start_some (eng : RegexEngine) (st : MgrState) (module : Record)
    (rm : RunningModule) (hl : lookupA st.running_modules module.name = some rm) :
    (kill_module_start eng st module).done = some .crashed ∨
    ((kill_module_start eng st module).done = none ∧
     lookupA (kill_module_start eng st module).st.running_modules module.name = none ∧
     (lookupA (kill_module_start eng st module).st.shutdown_modules module.name).isSome = true) := by
  unfold kill_module_start
  simp only [hl]
  split
  · exact Or.inl rfl
  · exact Or.inr ⟨rfl, lookupA_removeA_self _ _, by rw [lookupA_insertA_self]; rfl⟩
  · exact Or.inr ⟨rfl, lookupA_removeA_self _ _, by rw [lookupA_insertA_self]; rfl⟩

/-- If the module is running with a live process, the kill phase pends with
the exact expected state: message id bumped by the `kill` rpc, entry moved
from running to shutdown. -/
theorem kill_module_start_running (eng : RegexEngine) (st : MgrState) (module : Record)
    (rm : RunningModule) (pr : Process)
    (hlook : lookupA st.running_modules module.name = some rm)
    (hpr : rm.process = some pr) :
    kill_module_start eng st module =
      ⟨{ st with core_module := { st.core_module with message_id := st.core_module.message_id + 1 }, running_modules := removeA st.running_modules module.name, shutdown_modules := insertA st.shutdown_modules module.name rm }, none, false⟩ := by
  unfold kill_module_start
  simp only [hlook]
  rw [dispatch_kill_rpc eng { st with core_module := { st.core_module with message_id := st.core_module.message_id + 1 } } st.core_module module.name rm pr rfl hlook hpr]

/-- From a pending shutdown whose entry is present, the 5-second timer
force-kills the child and the subsequent exit completes the operation with
no error, the entry removed from the shutdown set and the running set
untouched. -/
theorem kill_steps_timer_exit (name : String) (S : MgrState) (rm : RunningModule)
    (hsh : lookupA S.shutdown_modules name = some rm) :
    ([KEvent.timer, KEvent.child_exit].foldl (kill_module_step name) ⟨S, none, false⟩).done = some .ok ∧
    ([KEvent.timer, KEvent.child_exit].foldl (kill_module_step name) ⟨S, none, false⟩).forced = true ∧
    lookupA ([KEvent.timer, KEvent.child_exit].foldl (kill_module_step name) ⟨S, none, false⟩).st.shutdown_modules name = none ∧
    ([KEvent.timer, KEvent.child_exit].foldl (kill_module_step name) ⟨S, none, false⟩).st.running_modules = S.running_modules := by
  have e1 : kill_module_step name ⟨S, none, false⟩ .timer =
      ⟨{ S with shutdown_modules := insertA S.shutdown_modules name (force_killed rm) }, none, true⟩ := by
    unfold kill_module_step
    simp [hsh]
  have hl2 : (lookupA (insertA S.shutdown_modules name (force_killed rm)) name).isSome = true := by
    rw [lookupA_insertA_self]
    rfl
  have e2 : kill_module_step name
      ⟨{ S with shutdown_modules := insertA S.shutdown_modules name (force_killed rm) }, none, true⟩ .child_exit =
      ⟨{ S with shutdown_modules := removeA (insertA S.shutdown_modules name (force_killed rm)) name }, some .ok, true⟩ := by
    unfold kill_module_step
    simp [hl2]
  rw [List.foldl_cons, List.foldl_cons, List.foldl_nil, e1, e2]
  exact ⟨rfl, rfl, lookupA_removeA_self _ _, rfl⟩

/-- C6 (amended).  For every `kill_module(p)` run over any stimulus
sequence: (1) successful completion implies the record's name is absent from
`running_modules`; (2) if the module was found RUNNING at invocation,
successful completion also implies absence from `shutdown_modules`; (3) with
a live process, the trace "5-second timer fires, then the child exits"
force-terminates the child and still completes without error, leaving the
name absent from both sets; (4) if no RunningModule exists for the record's
name, `kill_module` completes immediately (empty stimulus sequence) with no
error and no state change — though an entry from an earlier, still-pending
kill may remain in `shutdown_modules` (the counterexample). -/
theorem kill_module_postconditions (eng : RegexEngine) (db : List Record)
    (st : MgrState) (path : String) (module : Record)
    (hfind : db_find_path db path = some module) :
    (∀ events, (kill_module_run eng db st path events).done = some .ok →
      lookupA (kill_module_run eng db st path events).st.running_modules module.name = none) ∧
    (∀ events rm, lookupA st.running_modules module.name = some rm →
      (kill_module_run eng db st path events).done = some .ok →
      lookupA (kill_module_run eng db st path events).st.shutdown_modules module.name = none ∧
      lookupA (kill_module_run eng db st path events).st.running_modules module.name = none) ∧
    (∀ rm pr, lookupA st.running_modules module.name = some rm → rm.process = some pr →
      (kill_module_run eng db st path [.timer, .child_exit]).done = some .ok ∧
      (kill_module_run eng db st path [.timer, .child_exit]).forced = true ∧
      lookupA (kill_module_run eng db st path [.timer, .child_exit]).st.shutdown_modules module.name = none ∧
      lookupA (kill_module_run eng db st path [.timer, .child_exit]).st.running_modules module.name = none) ∧
    (lookupA st.running_modules module.name = none →
      kill_module_run eng db st path [] = ⟨st, some .ok, false⟩) := by
  have hrun_eq : ∀ events : List KEvent, kill_module_run eng db st path events =
      events.foldl (kill_module_step module.name) (kill_module_start eng st module) := by
    intro events
    unfold kill_module_run
    rw [hfind]
  refine ⟨?_, ?_, ?_, ?_⟩
  · intro events hdone
    rw [hrun_eq] at hdone ⊢
    refine kill_foldl_invA module.name events _ ?_ (Or.inr hdone)
    intro hds
    cases hl : lookupA st.running_modules module.name with
    | none =>
      rw [kill_module_start_none eng st module hl]
      exact hl
    | some rm =>
      rcases kill_module_start_some eng st module rm hl with hc | ⟨_, hrunL, _⟩
      · rcases hds with h | h
        · rw [hc] at h
          simp at h
        · rw [hc] at h
          simp at h
      · exact hrunL
  · intro events rm hlook hdone
    rw [hrun_eq] at hdone ⊢
    rcases kill_module_start_some eng st module rm hlook with hc | ⟨hdn, hrunL, hshI⟩
    · refine kill_foldl_invB module.name events _ ?_ ?_ hdone
      · intro h
        rw [hc] at h
        simp at h
      · intro h
        rw [hc] at h
        simp at h
    · refine kill_foldl_invB module.name events _ ?_ ?_ hdone
      · intro _
        exact ⟨hshI, hrunL⟩
      · intro h
        rw [hdn] at h
        simp at h
  · intro rm pr hlook hpr
    rw [hrun_eq, kill_module_start_running eng st module rm pr hlook hpr]
    obtain ⟨d, f, s, r⟩ := kill_steps_timer_exit module.name { st with core_module := { st.core_module with message_id := st.core_module.message_id + 1 }, running_modules := removeA st.running_modules module.name, shutdown_modules := insertA st.shutdown_modules module.name rm } rm (lookupA_insertA_self _ _ _)
    refine ⟨d, f, s, ?_⟩
    rw [r]
    exact lookupA_removeA_self _ _
  · intro hnone
    rw [hrun_eq]
    simp only [List.foldl_nil]
    exact kill_module_start_none eng st module hnone

/-- C6 witness: for the record `local:/tmp/mod` (name `alpha`) running with
a live process, the timer-then-exit trace completes without error, forced,
with `alpha` absent from both sets; and on a supervisor where `alpha` is not
running, `kill_module` completes immediately. -/
theorem kill_module_postconditions_witness :
    db_find_path [recAlpha] "local:/tmp/mod" = some recAlpha ∧
    (kill_module_run eng0 [recAlpha] stAlpha "local:/tmp/mod" [.timer, .child_exit]).done = some .ok ∧
    (kill_module_run eng0 [recAlpha] stAlpha "local:/tmp/mod" [.timer, .child_exit]).forced = true ∧
    lookupA (kill_module_run eng0 [recAlpha] stAlpha "local:/tmp/mod" [.timer, .child_exit]).st.shutdown_modules "alpha" = none ∧
    lookupA (kill_module_run eng0 [recAlpha] stAlpha "local:/tmp/mod" [.timer, .child_exit]).st.running_modules "alpha" = none ∧
    kill_module_run eng0 [recAlpha] { core_module := {} } "local:/tmp/mod" [] = ⟨{ core_module := {} }, some .ok, false⟩ := by
  have h := kill_module_postconditions eng0 [recAlpha] stAlpha "local:/tmp/mod" recAlpha rfl
  obtain ⟨d, f, s, r⟩ := h.2.2.1 rmAlpha {} rfl rfl
  have h2 := kill_module_postconditions eng0 [recAlpha] { core_module := {} } "local:/tmp/mod" recAlpha rfl
  exact ⟨rfl, d, f, s, r, h2.2.2.2 rfl⟩

/-- C6 counterexample.  Start a `kill_module` on the running module `alpha`
and let it pend (the entry has moved to `shutdown_modules`, the child has
not exited).  A second `kill_module` on the same path now finds no
RunningModule, returns successfully at once — and at that return time the
entry is still present in `shutdown_modules`, refuting the claim's
unconditional "absent from both sets on successful return". -/
theorem kill_module_success_with_shutdown_entry :
    c6ks1.done = none ∧
    (kill_module_run eng0 [recAlpha] c6ks1.st "local:/tmp/mod" []).done = some .ok ∧
    (lookupA (kill_module_run eng0 [recAlpha] c6ks1.st "local:/tmp/mod" []).st.shutdown_modules
      "alpha").isSome = true :=
  ⟨rfl, rfl, rfl⟩

end BreachCore
